import Mathlib

/-!
Verification of the OAuth manager of `pkg/oauth/manager/manager.go`
(`horizon`).  The data model, the store contracts of
`pkg/oauth/store/types.go` and the manager operations are embedded as
executable Lean definitions; machine time is a `Nat` instant passed
explicitly, store failures are injected through a fault environment, and
Go panics are modelled by `Option`.
-/

set_option maxHeartbeats 1600000

deriving instance DecidableEq for Except

/-- Error kinds surfaced by the manager: the four OAuth validation kinds
(`herrors.ErrOAuth...` plus the store's not-found) and `storeErr n` for an
arbitrary infrastructure failure of a store call. -/
inductive Err where
  | NotFound
  | RequestNotValid
  | SecretNotValid
  | CodeExpired
  | storeErr (n : Nat)
deriving DecidableEq, Repr

/-- `models.Token`: a single entity serving as authorization code and as
access token.  `CreatedAt` is a `Nat` instant, `ExpiresIn` a `Nat`
duration. -/
structure Token where
  code : String
  clientID : String
  redirectURI : String
  state : String
  createdAt : Nat
  expiresIn : Nat
  scope : String
  userOrRobotIdentity : String
deriving DecidableEq, Repr

/-- `models.ClientSecret`. -/
structure ClientSecret where
  id : Nat
  clientID : String
  clientSecret : String
  createdAt : Nat
deriving DecidableEq, Repr

/-- `models.OauthApp` (owner principal fields opaque, modelled as `Nat`). -/
structure OauthApp where
  name : String
  clientID : String
  redirectURI : String
  homeURL : String
  desc : String
  ownerType : Nat
  ownerID : Nat
deriving DecidableEq, Repr

/-- `AccessTokenGenerateRequest` (the `*http.Request` field is irrelevant
to the manager logic and omitted). -/
structure AccessTokenGenerateRequest where
  clientID : String
  clientSecret : String
  code : String
  redirectURL : String
  state : String
deriving DecidableEq, Repr

/-- The configured lifetimes of the `manager` struct. -/
structure ManagerConfig where
  authorizeCodeExpireTime : Nat
  accessTokenExpireTime : Nat
deriving DecidableEq, Repr

/-- The durable contents of the two stores. -/
structure OauthStores where
  tokens : List Token
  secrets : List ClientSecret
  apps : List OauthApp
deriving DecidableEq, Repr

/-- Fault environment: for each fallible store call, `some n` makes that
call fail with `Err.storeErr n` and leave the state unchanged, `none`
makes it succeed. -/
structure FaultEnv where
  listSecretErr : Option Nat
  tokenCreateErr : Option Nat
  tokenDeleteByCodeErr : Option Nat
  tokenDeleteByClientIDErr : Option Nat
  deleteSecretByClientIDErr : Option Nat
  deleteAppErr : Option Nat
deriving DecidableEq, Repr

/-- One store call, as recorded in the trace of a manager operation. -/
inductive StoreCall where
  | listSecret (clientID : String)
  | tokenGet (code : String)
  | tokenCreate (t : Token)
  | tokenDeleteByCode (code : String)
  | tokenDeleteByClientID (clientID : String)
  | deleteSecretByClientID (clientID : String)
  | deleteApp (clientID : String)
deriving DecidableEq, Repr

/-- Modelled from the spec: `OauthAppStore.ListSecret(clientID) -> [secret]`
returns the stored secrets of the client (the concrete store
implementation of the repository is not under `src/`); the fault
environment may make the call fail. -/
def storeListSecret (env : FaultEnv) (s : OauthStores) (clientID : String) :
    Except Err (List ClientSecret) :=
  match env.listSecretErr with
  | some n => .error (.storeErr n)
  | none => .ok (s.secrets.filter fun cs => cs.clientID == clientID)

/-- Modelled from the spec: `TokenStore.Get(code) -> token | NotFound`. -/
def storeTokenGet (s : OauthStores) (code : String) : Except Err Token :=
  match s.tokens.find? (fun t => t.code == code) with
  | some t => .ok t
  | none => .error .NotFound

/-- Modelled from the spec: `TokenStore.Create(token)` persists the token. -/
def storeTokenCreate (env : FaultEnv) (s : OauthStores) (t : Token) :
    Except Err OauthStores :=
  match env.tokenCreateErr with
  | some n => .error (.storeErr n)
  | none => .ok { s with tokens := s.tokens ++ [t] }

/-- Modelled from the spec: `TokenStore.DeleteByCode(code)`. -/
def storeTokenDeleteByCode (env : FaultEnv) (s : OauthStores) (code : String) :
    Except Err OauthStores :=
  match env.tokenDeleteByCodeErr with
  | some n => .error (.storeErr n)
  | none => .ok { s with tokens := s.tokens.filter fun t => !(t.code == code) }

/-- Modelled from the spec: `TokenStore.DeleteByClientID(clientID)`. -/
def storeTokenDeleteByClientID (env : FaultEnv) (s : OauthStores) (clientID : String) :
    Except Err OauthStores :=
  match env.tokenDeleteByClientIDErr with
  | some n => .error (.storeErr n)
  | none => .ok { s with tokens := s.tokens.filter fun t => !(t.clientID == clientID) }

/-- Modelled from the spec: `OauthAppStore.DeleteSecretByClientID(clientID)`. -/
def storeDeleteSecretByClientID (env : FaultEnv) (s : OauthStores) (clientID : String) :
    Except Err OauthStores :=
  match env.deleteSecretByClientIDErr with
  | some n => .error (.storeErr n)
  | none => .ok { s with secrets := s.secrets.filter fun cs => !(cs.clientID == clientID) }

/-- Modelled from the spec: `OauthAppStore.DeleteApp(clientID)`. -/
def storeDeleteApp (env : FaultEnv) (s : OauthStores) (clientID : String) :
    Except Err OauthStores :=
  match env.deleteAppErr with
  | some n => .error (.storeErr n)
  | none => .ok { s with apps := s.apps.filter fun a => !(a.clientID == clientID) }

/-- Modelled from the spec: `rand.String(n)` of `k8s.io/apimachinery`
(external library, not under `src/`) returns `n` characters drawn from its
fixed vowel-free alphanumeric alphabet; the random source is a choice
function `g`. -/
def alphanums : List Char :=
  ['b', 'c', 'd', 'f', 'g', 'h', 'j', 'k', 'l', 'm', 'n', 'p', 'q', 'r',
   's', 't', 'v', 'w', 'x', 'z', '2', '4', '5', '6', '7', '8', '9']

/-- Modelled from the spec: the random string generator, each position an
alphabet element selected by the choice function `g`. -/
def randString (g : Nat → Nat) (n : Nat) : String :=
  String.mk ((List.range n).map fun i => alphanums.getD (g i % alphanums.length) 'b')

def HorizonAPPClientIDPrefix : String := "ho"

def BasicOauthClientLength : Nat := 20

def OauthClientSecretLength : Nat := 40

/-- `AppType` is a Go `uint8`. -/
abbrev AppType := Nat

def HorizonOAuthAPP : AppType := 1

def DirectOAuthAPP : AppType := 2

/-- `GenClientID` of `manager.go`. -/
def GenClientID (g : Nat → Nat) (appType : AppType) : String :=
  if appType == HorizonOAuthAPP then
    HorizonAPPClientIDPrefix ++ randString g BasicOauthClientLength
  else if appType == DirectOAuthAPP then
    randString g BasicOauthClientLength
  else
    randString g BasicOauthClientLength

/-- The `ClientSecret` value built by `manager.CreateSecret` (the `ID` is
filled by the store on return; the store call itself is not needed by the
claims about the generated value). -/
def CreateSecret (g : Nat → Nat) (now : Nat) (clientID : String) : ClientSecret :=
  { id := 0
    clientID := clientID
    clientSecret := randString g OauthClientSecretLength
    createdAt := now }

def CutPostNum : Nat := 8

def MustPrefix : String := "*****"

/-- One iteration of the masking loop of `MuskClientSecrets`:
`MustPrefix + originSecret[L-CutPostNum-1 : L-1]`.  A Go slice with a
negative low bound panics, modelled as `none`. -/
def muskSecret (originSecret : String) : Option String :=
  if originSecret.length < CutPostNum + 1 then none
  else some ( MustPrefix ++ String.mk
    ((originSecret.data.drop (originSecret.length - ( CutPostNum + 1))).take CutPostNum))

/-- `MuskClientSecrets` of `manager.go`: masks every secret in the list,
`none` when the loop panics on a short secret. -/
def MuskClientSecrets : List ClientSecret → Option (List ClientSecret)
  | [] => some []
  | cs :: rest =>
    match muskSecret cs.clientSecret with
    | none => none
    | some m =>
      match MuskClientSecrets rest with
      | none => none
      | some restM => some ({ cs with clientSecret := m } :: restM)

/-- `manager.ListSecret`: fetch the client's secrets, then mask them;
`none` models the masking panic. -/
def ListSecret (env : FaultEnv) (s : OauthStores) (clientID : String) :
    Option (Except Err (List ClientSecret)) :=
  match storeListSecret env s clientID with
  | .error e => some (.error e)
  | .ok clientSecrets =>
    match MuskClientSecrets clientSecrets with
    | none => none
    | some masked => some (.ok masked)

/-- `manager.NewAccessToken`: the minted access token.  The Go code builds
the token with `State` and `Code` left at their zero value, then sets
`Code` from the strategy's `GetCode` applied to a snapshot of that token. -/
def NewAccessToken (m : ManagerConfig) (now : Nat) (getCode : Token → String)
    (authorizationCodeToken : Token) (req : AccessTokenGenerateRequest) : Token :=
  let token : Token :=
    { code := ""
      clientID := req.clientID
      redirectURI := req.redirectURL
      state := ""
      createdAt := now
      expiresIn := m.accessTokenExpireTime
      scope := authorizationCodeToken.scope
      userOrRobotIdentity := authorizationCodeToken.userOrRobotIdentity }
  { token with code := getCode token }

/-- `manager.CheckByAuthorizationCode`: state binding, redirect binding,
then freshness (`CreatedAt.Add(expire).Before(now)` is `createdAt + expire
< now`). -/
def CheckByAuthorizationCode (m : ManagerConfig) (now : Nat)
    (req : AccessTokenGenerateRequest) (codeToken : Token) : Option Err :=
  if req.state ≠ codeToken.state then some .RequestNotValid
  else if req.redirectURL ≠ codeToken.redirectURI then some .RequestNotValid
  else if codeToken.createdAt + m.authorizeCodeExpireTime < now then some .CodeExpired
  else none

/-- `manager.GenAccessToken`: returns the result, the final store state
and the trace of store calls made, in order. -/
def GenAccessToken (m : ManagerConfig) (env : FaultEnv) (now : Nat)
    (getCode : Token → String) (s : OauthStores) (req : AccessTokenGenerateRequest) :
    Except Err Token × OauthStores × List StoreCall :=
  match storeListSecret env s req.clientID with
  | .error e => (.error e, s, [.listSecret req.clientID])
  | .ok secrets =>
    let secretOk := secrets.any fun secret => secret.clientSecret == req.clientSecret
    if secretOk = false then
      (.error .SecretNotValid, s, [.listSecret req.clientID])
    else
      match storeTokenGet s req.code with
      | .error e => (.error e, s, [.listSecret req.clientID, .tokenGet req.code])
      | .ok authorizationCodeToken =>
        match CheckByAuthorizationCode m now req authorizationCodeToken with
        | some e => (.error e, s, [.listSecret req.clientID, .tokenGet req.code])
        | none =>
          let accessToken := NewAccessToken m now getCode authorizationCodeToken req
          match storeTokenCreate env s accessToken with
          | .error e => (.error e, s,
              [.listSecret req.clientID, .tokenGet req.code, .tokenCreate accessToken])
          | .ok s1 =>
            match storeTokenDeleteByCode env s1 req.code with
            | .error _ => (.ok accessToken, s1,
                [.listSecret req.clientID, .tokenGet req.code, .tokenCreate accessToken,
                 .tokenDeleteByCode req.code])
            | .ok s2 => (.ok accessToken, s2,
                [.listSecret req.clientID, .tokenGet req.code, .tokenCreate accessToken,
                 .tokenDeleteByCode req.code])

/-- `manager.DeleteOAuthApp`: tokens, then secrets, then the app record;
stops at the first failing step. -/
def DeleteOAuthApp (env : FaultEnv) (s : OauthStores) (clientID : String) :
    Option Err × OauthStores × List StoreCall :=
  match storeTokenDeleteByClientID env s clientID with
  | .error e => (some e, s, [.tokenDeleteByClientID clientID])
  | .ok s1 =>
    match storeDeleteSecretByClientID env s1 clientID with
    | .error e => (some e, s1,
        [.tokenDeleteByClientID clientID, .deleteSecretByClientID clientID])
    | .ok s2 =>
      match storeDeleteApp env s2 clientID with
      | .error e => (some e, s2,
          [.tokenDeleteByClientID clientID, .deleteSecretByClientID clientID,
           .deleteApp clientID])
      | .ok s3 => (none, s3,
          [.tokenDeleteByClientID clientID, .deleteSecretByClientID clientID,
           .deleteApp clientID])

/-! Shared helper lemmas. -/

theorem string_data_append (a b : String) : (a ++ b).data = a.data ++ b.data := by
  cases a; cases b; rfl

theorem randString_length (g : Nat → Nat) (n : Nat) : (randString g n).length = n := by
  simp [randString, String.length]

theorem alphanums_getD_isAlphanum (k : Nat) :
    (alphanums.getD (k % alphanums.length) 'b').isAlphanum = true := by
  have hall : ∀ j : Fin 27, (alphanums.getD j.val 'b').isAlphanum = true := by decide
  have hlen : alphanums.length = 27 := rfl
  have hlt : k % alphanums.length < 27 := by
    rw [hlen]; exact Nat.mod_lt _ (by norm_num)
  exact hall ⟨k % alphanums.length, hlt⟩

theorem randString_mem_isAlphanum (g : Nat → Nat) (n : Nat) :
    ∀ c ∈ (randString g n).data, c.isAlphanum = true := by
  intro c hc
  simp only [randString, List.mem_map, List.mem_range] at hc
  obtain ⟨i, _, hi⟩ := hc
  rw [← hi]
  exact alphanums_getD_isAlphanum (g i)

theorem muskSecret_eq_none_iff (s : String) : muskSecret s = none ↔ s.length < 9 := by
  unfold muskSecret
  split_ifs with h
  · simp only [CutPostNum] at h
    simp; omega
  · simp only [CutPostNum] at h
    simp; omega

theorem checkByAuthorizationCode_mismatch (m : ManagerConfig) (now : Nat)
    (req : AccessTokenGenerateRequest) (tok : Token)
    (h : req.state ≠ tok.state ∨ req.redirectURL ≠ tok.redirectURI) :
    CheckByAuthorizationCode m now req tok = some .RequestNotValid := by
  unfold CheckByAuthorizationCode
  rcases h with h | h
  · rw [if_pos h]
  · by_cases h1 : req.state ≠ tok.state
    · rw [if_pos h1]
    · rw [if_neg h1, if_pos h]

theorem checkByAuthorizationCode_expired (m : ManagerConfig) (now : Nat)
    (req : AccessTokenGenerateRequest) (tok : Token)
    (hs : req.state = tok.state) (hr : req.redirectURL = tok.redirectURI)
    (hexp : tok.createdAt + m.authorizeCodeExpireTime < now) :
    CheckByAuthorizationCode m now req tok = some .CodeExpired := by
  unfold CheckByAuthorizationCode
  rw [if_neg (fun h => h hs), if_neg (fun h => h hr), if_pos hexp]

theorem checkByAuthorizationCode_eq_none_iff (m : ManagerConfig) (now : Nat)
    (req : AccessTokenGenerateRequest) (tok : Token) :
    CheckByAuthorizationCode m now req tok = none ↔
      req.state = tok.state ∧ req.redirectURL = tok.redirectURI ∧
      ¬ tok.createdAt + m.authorizeCodeExpireTime < now := by
  unfold CheckByAuthorizationCode
  split_ifs with h1 h2 h3 <;> simp_all

/-! Concrete sample data used by the witnesses. -/

def tokW : Token :=
  { code := "codeA", clientID := "cid", redirectURI := "ru", state := "st",
    createdAt := 0, expiresIn := 10, scope := "sc", userOrRobotIdentity := "u1" }

def secW : ClientSecret :=
  { id := 1, clientID := "cid", clientSecret := "sek", createdAt := 0 }

def appW : OauthApp :=
  { name := "app", clientID := "cid", redirectURI := "ru", homeURL := "hu",
    desc := "d", ownerType := 0, ownerID := 0 }

def storesW : OauthStores := { tokens := [tokW], secrets := [secW], apps := [appW] }

def envW : FaultEnv := ⟨none, none, none, none, none, none⟩

def cfgW : ManagerConfig := { authorizeCodeExpireTime := 10, accessTokenExpireTime := 100 }

def reqW : AccessTokenGenerateRequest :=
  { clientID := "cid", clientSecret := "sek", code := "codeA",
    redirectURL := "ru", state := "st" }

def getCodeW : Token → String := fun _ => "AC"

def tokAW : Token :=
  { code := "AC", clientID := "cid", redirectURI := "ru", state := "",
    createdAt := 5, expiresIn := 100, scope := "sc", userOrRobotIdentity := "u1" }

def gW : Nat → Nat := fun _ => 0

/-! Claim theorems. -/

/-- C5: `DeleteOAuthApp` executes exactly three store operations in order
(delete tokens by client, delete secrets by client, delete the app), and a
failing step returns its error to the caller, executes none of the later
steps, and rolls back none of the completed ones. -/
theorem deleteOAuthApp_cascade (env : FaultEnv) (s : OauthStores) (clientID : String) :
    (∀ n, env.tokenDeleteByClientIDErr = some n →
      DeleteOAuthApp env s clientID =
        (some (.storeErr n), s, [.tokenDeleteByClientID clientID])) ∧
    (env.tokenDeleteByClientIDErr = none → ∀ n, env.deleteSecretByClientIDErr = some n →
      DeleteOAuthApp env s clientID =
        (some (.storeErr n),
         { s with tokens := s.tokens.filter fun t => !(t.clientID == clientID) },
         [.tokenDeleteByClientID clientID, .deleteSecretByClientID clientID])) ∧
    (env.tokenDeleteByClientIDErr = none → env.deleteSecretByClientIDErr = none →
      ∀ n, env.deleteAppErr = some n →
      DeleteOAuthApp env s clientID =
        (some (.storeErr n),
         { s with tokens := s.tokens.filter fun t => !(t.clientID == clientID),
                  secrets := s.secrets.filter fun cs => !(cs.clientID == clientID) },
         [.tokenDeleteByClientID clientID, .deleteSecretByClientID clientID,
          .deleteApp clientID])) ∧
    (env.tokenDeleteByClientIDErr = none → env.deleteSecretByClientIDErr = none →
      env.deleteAppErr = none →
      DeleteOAuthApp env s clientID =
        (none,
         { tokens := s.tokens.filter fun t => !(t.clientID == clientID),
           secrets := s.secrets.filter fun cs => !(cs.clientID == clientID),
           apps := s.apps.filter fun a => !(a.clientID == clientID) },
         [.tokenDeleteByClientID clientID, .deleteSecretByClientID clientID,
          .deleteApp clientID])) := by
  refine ⟨?_, ?_, ?_, ?_⟩ <;> intros <;>
    simp [DeleteOAuthApp, storeTokenDeleteByClientID, storeDeleteSecretByClientID,
      storeDeleteApp, *]

def envSecFailW : FaultEnv := { envW with deleteSecretByClientIDErr := some 3 }

theorem deleteOAuthApp_cascade_witness :
    DeleteOAuthApp envW storesW "cid" =
      (none, { tokens := [], secrets := [], apps := [] },
       [.tokenDeleteByClientID "cid", .deleteSecretByClientID "cid", .deleteApp "cid"]) ∧
    DeleteOAuthApp envSecFailW storesW "cid" =
      (some (.storeErr 3), { tokens := [], secrets := [secW], apps := [appW] },
       [.tokenDeleteByClientID "cid", .deleteSecretByClientID "cid"]) :=
  ⟨(deleteOAuthApp_cascade envW storesW "cid").2.2.2 rfl rfl rfl,
   (deleteOAuthApp_cascade envSecFailW storesW "cid").2.1 rfl 3 rfl⟩

/-- C6 counterexample: at the 20-character secret of the spec's own
example, the masked value's variable part is the 8-character string
"bcdefghi", not a 9-character substring: the claim's conjunction of "drop
the final character, keep the slice from index L-9 up to L-1" with "that
slice has 9 characters" is false. -/
theorem musk_nine_char_counterexample :
    ¬ (muskSecret "0123456789abcdefghij" = some ( MustPrefix ++ "bcdefghi") ∧
       ("bcdefghi" : String).length = 9) := by decide

/-- C6 (amended): for every secret of length L at least 9, masking
returns the fixed literal "*****" followed by the 8-character substring of
the secret starting at index L-9 and ending before index L-1. -/
theorem musk_eight_char_suffix (s : String) (h : 9 ≤ s.length) :
    ∃ t : String, muskSecret s = some ( MustPrefix ++ t) ∧ t.length = 8 ∧
      t.data = (s.data.drop (s.length - 9)).take 8 := by
  refine ⟨String.mk ((s.data.drop (s.length - 9)).take 8), ?_, ?_, rfl⟩
  · unfold muskSecret
    rw [if_neg (by simp [CutPostNum]; omega)]
    simp [CutPostNum]
  · have hdata : s.data.length = s.length := rfl
    show ((s.data.drop (s.length - 9)).take 8).length = 8
    simp [List.length_take, List.length_drop]
    omega

theorem musk_eight_char_suffix_witness :
    ∃ t : String, muskSecret "0123456789abcdefghij" = some ( MustPrefix ++ t) ∧
      t.length = 8 ∧
      t.data = (("0123456789abcdefghij" : String).data.drop
        (("0123456789abcdefghij" : String).length - 9)).take 8 :=
  musk_eight_char_suffix "0123456789abcdefghij" (by decide)

/-- C7: masking the 20-character secret "0123456789abcdefghij" yields
exactly "*****bcdefghi", both through the masking function itself and
through `ListSecret`, which applies it to every returned secret. -/
theorem musk_example_value :
    muskSecret "0123456789abcdefghij" = some "*****bcdefghi" ∧
    ListSecret envW
      { tokens := [], secrets := [⟨7, "cid", "0123456789abcdefghij", 3⟩], apps := [] }
      "cid" = some (.ok [⟨7, "cid", "*****bcdefghi", 3⟩]) := by decide

/-- C9: the masking operation is partial, panicking exactly when some
secret in the list is shorter than 9 characters, and the public interface
establishes the totality precondition because `CreateSecret` always
generates secret values of the configured 40-character length. -/
theorem musk_partiality :
    (∀ l : List ClientSecret, MuskClientSecrets l = none ↔
      ∃ cs ∈ l, cs.clientSecret.length < 9) ∧
    (∀ g now clientID,
      (CreateSecret g now clientID).clientSecret.length = OauthClientSecretLength ∧
      9 ≤ (CreateSecret g now clientID).clientSecret.length) := by
  constructor
  · intro l
    induction l with
    | nil => simp [MuskClientSecrets]
    | cons c rest ih =>
      unfold MuskClientSecrets
      cases hm : muskSecret c.clientSecret with
      | none =>
        simp only [List.mem_cons]
        constructor
        · intro _
          exact ⟨c, Or.inl rfl, (muskSecret_eq_none_iff _).mp hm⟩
        · intro _; trivial
      | some mval =>
        have hclen : ¬ c.clientSecret.length < 9 := by
          intro hlt
          rw [(muskSecret_eq_none_iff _).mpr hlt] at hm
          cases hm
        cases hr : MuskClientSecrets rest with
        | none =>
          simp only [List.mem_cons]
          constructor
          · intro _
            obtain ⟨cs, hmem, hlen⟩ := ih.mp hr
            exact ⟨cs, Or.inr hmem, hlen⟩
          · intro _; trivial
        | some restM =>
          simp only [List.mem_cons]
          constructor
          · intro hcontra; cases hcontra
          · rintro ⟨cs, hceq | hmem, hlen⟩
            · rw [hceq] at hlen; exact absurd hlen hclen
            · have hnone : MuskClientSecrets rest = none := ih.mpr ⟨cs, hmem, hlen⟩
              rw [hr] at hnone; cases hnone
  · intro g now clientID
    constructor
    · show (randString g OauthClientSecretLength).length = OauthClientSecretLength
      exact randString_length g _
    · show 9 ≤ (randString g OauthClientSecretLength).length
      rw [randString_length]
      decide

theorem musk_partiality_witness :
    MuskClientSecrets [{ id := 0, clientID := "c", clientSecret := "short", createdAt := 0 }] = none ∧
    (CreateSecret gW 0 "c").clientSecret.length = OauthClientSecretLength :=
  ⟨(musk_partiality.1 _).mpr ⟨_, List.mem_cons_self _ _, by decide⟩,
   (musk_partiality.2 gW 0 "c").1⟩

/-- C8: for every outcome of the random generator, `GenClientID` on the
Platform app type returns a 22-character string beginning with the fixed
two-character prefix "ho" followed by the 20 random characters, and on the
Direct app type returns the bare 20-character random string; both results
consist only of alphanumeric characters. -/
theorem genClientID_shape (g : Nat → Nat) :
    (GenClientID g HorizonOAuthAPP).length = 22 ∧
    (GenClientID g HorizonOAuthAPP).data.take 2 = ['h', 'o'] ∧
    (GenClientID g DirectOAuthAPP).length = 20 ∧
    GenClientID g DirectOAuthAPP = randString g BasicOauthClientLength ∧
    (∀ c ∈ (GenClientID g HorizonOAuthAPP).data, c.isAlphanum = true) ∧
    (∀ c ∈ (GenClientID g DirectOAuthAPP).data, c.isAlphanum = true) := by
  have hH : GenClientID g HorizonOAuthAPP =
      HorizonAPPClientIDPrefix ++ randString g BasicOauthClientLength := rfl
  have hD : GenClientID g DirectOAuthAPP = randString g BasicOauthClientLength := rfl
  refine ⟨?_, ?_, ?_, hD, ?_, ?_⟩
  · rw [hH, String.length_append, randString_length]
    decide
  · rw [hH, string_data_append]
    rfl
  · rw [hD, randString_length]
    rfl
  · intro c hc
    rw [hH, string_data_append] at hc
    rcases List.mem_append.mp hc with hcl | hcr
    · have hho : HorizonAPPClientIDPrefix.data = ['h', 'o'] := rfl
      rw [hho] at hcl
      have : c = 'h' ∨ c = 'o' := by
        simpa using hcl
      rcases this with rfl | rfl <;> decide
    · exact randString_mem_isAlphanum g _ c hcr
  · intro c hc
    rw [hD] at hc
    exact randString_mem_isAlphanum g _ c hc

theorem genClientID_shape_witness :
    (GenClientID gW HorizonOAuthAPP).length = 22 ∧
    (GenClientID gW DirectOAuthAPP).length = 20 ∧
    Char.isAlphanum 'h' = true ∧ Char.isAlphanum 'b' = true :=
  ⟨(genClientID_shape gW).1, (genClientID_shape gW).2.2.1,
   (genClientID_shape gW).2.2.2.2.1 'h' (by decide),
   (genClientID_shape gW).2.2.2.2.2 'b' (by decide)⟩

theorem storeTokenCreate_error (env : FaultEnv) (s : OauthStores) (t : Token) (e : Err)
    (h : storeTokenCreate env s t = .error e) :
    ∃ n, env.tokenCreateErr = some n ∧ e = .storeErr n := by
  unfold storeTokenCreate at h
  cases henv : env.tokenCreateErr with
  | none => rw [henv] at h; cases h
  | some n =>
    rw [henv] at h
    simp only [Except.error.injEq] at h
    exact ⟨n, rfl, h.symm⟩

/-- C2: when every validation passes and the new access token is persisted
successfully, `GenAccessToken` returns that access token with no error
even though the deletion of the consumed authorization code fails; the
failed delete leaves the persisted token in the store and is not
propagated. -/
theorem genAccessToken_delete_best_effort
    (m : ManagerConfig) (env : FaultEnv) (now : Nat) (getCode : Token → String)
    (s : OauthStores) (req : AccessTokenGenerateRequest)
    (secrets : List ClientSecret) (authTok : Token) (n : Nat)
    (hList : storeListSecret env s req.clientID = .ok secrets)
    (hSec : (secrets.any fun secret => secret.clientSecret == req.clientSecret) = true)
    (hGet : storeTokenGet s req.code = .ok authTok)
    (hChk : CheckByAuthorizationCode m now req authTok = none)
    (hCreate : env.tokenCreateErr = none)
    (hDel : env.tokenDeleteByCodeErr = some n) :
    (GenAccessToken m env now getCode s req).1 =
      .ok (NewAccessToken m now getCode authTok req) ∧
    (GenAccessToken m env now getCode s req).2.1 =
      { s with tokens := s.tokens ++ [NewAccessToken m now getCode authTok req] } := by
  constructor <;>
    simp [GenAccessToken, hList, hSec, hGet, hChk, storeTokenCreate, hCreate,
      storeTokenDeleteByCode, hDel]

def envDelFailW : FaultEnv := { envW with tokenDeleteByCodeErr := some 0 }

theorem genAccessToken_delete_best_effort_witness :
    (GenAccessToken cfgW envDelFailW 5 getCodeW storesW reqW).1 =
      .ok (NewAccessToken cfgW 5 getCodeW tokW reqW) ∧
    (GenAccessToken cfgW envDelFailW 5 getCodeW storesW reqW).2.1 =
      { storesW with tokens := storesW.tokens ++ [NewAccessToken cfgW 5 getCodeW tokW reqW] } :=
  genAccessToken_delete_best_effort cfgW envDelFailW 5 getCodeW storesW reqW [secW] tokW 0
    (by decide) (by decide) (by decide) (by decide) rfl rfl

/-- C3: under a matching client secret and matching state and redirect
bindings, `GenAccessToken` fails with `CodeExpired` exactly when the
current time is strictly after the code's creation time plus the
configured authorization-code lifetime; at or before that bound no
`CodeExpired` error is produced. -/
theorem genAccessToken_freshness
    (m : ManagerConfig) (env : FaultEnv) (now : Nat) (getCode : Token → String)
    (s : OauthStores) (req : AccessTokenGenerateRequest)
    (secrets : List ClientSecret) (authTok : Token)
    (hList : storeListSecret env s req.clientID = .ok secrets)
    (hSec : (secrets.any fun secret => secret.clientSecret == req.clientSecret) = true)
    (hGet : storeTokenGet s req.code = .ok authTok)
    (hs : req.state = authTok.state) (hr : req.redirectURL = authTok.redirectURI) :
    (authTok.createdAt + m.authorizeCodeExpireTime < now →
      (GenAccessToken m env now getCode s req).1 = .error .CodeExpired) ∧
    (now ≤ authTok.createdAt + m.authorizeCodeExpireTime →
      (GenAccessToken m env now getCode s req).1 ≠ .error .CodeExpired) := by
  constructor
  · intro hexp
    simp [GenAccessToken, hList, hSec, hGet,
      checkByAuthorizationCode_expired m now req authTok hs hr hexp]
  · intro hfresh
    have hChk : CheckByAuthorizationCode m now req authTok = none :=
      (checkByAuthorizationCode_eq_none_iff m now req authTok).mpr ⟨hs, hr, by omega⟩
    cases hCr : storeTokenCreate env s (NewAccessToken m now getCode authTok req) with
    | error e =>
      obtain ⟨n, _, rfl⟩ := storeTokenCreate_error env s _ e hCr
      simp [GenAccessToken, hList, hSec, hGet, hChk, hCr]
    | ok s1 =>
      cases hDel : storeTokenDeleteByCode env s1 req.code with
      | error e2 => simp [GenAccessToken, hList, hSec, hGet, hChk, hCr, hDel]
      | ok s2 => simp [GenAccessToken, hList, hSec, hGet, hChk, hCr, hDel]

theorem genAccessToken_freshness_witness :
    (GenAccessToken cfgW envW 50 getCodeW storesW reqW).1 = .error .CodeExpired ∧
    (GenAccessToken cfgW envW 5 getCodeW storesW reqW).1 ≠ .error .CodeExpired :=
  ⟨(genAccessToken_freshness cfgW envW 50 getCodeW storesW reqW [secW] tokW
      (by decide) (by decide) (by decide) rfl rfl).1 (by decide),
   (genAccessToken_freshness cfgW envW 5 getCodeW storesW reqW [secW] tokW
      (by decide) (by decide) (by decide) rfl rfl).2 (by decide)⟩

/-- C4: the access token returned by a successful `GenAccessToken` has
ClientID and RedirectURI from the request, Scope and UserOrRobotIdentity
from the stored authorization code, empty State, CreatedAt the current
time, ExpiresIn the configured access-token lifetime, and Code produced by
the caller-supplied strategy applied to the token snapshot. -/
theorem genAccessToken_minted_fields
    (m : ManagerConfig) (env : FaultEnv) (now : Nat) (getCode : Token → String)
    (s : OauthStores) (req : AccessTokenGenerateRequest) (authTok tok : Token)
    (hGet : storeTokenGet s req.code = .ok authTok)
    (hok : (GenAccessToken m env now getCode s req).1 = .ok tok) :
    tok.clientID = req.clientID ∧ tok.redirectURI = req.redirectURL ∧
    tok.scope = authTok.scope ∧ tok.userOrRobotIdentity = authTok.userOrRobotIdentity ∧
    tok.state = "" ∧ tok.createdAt = now ∧ tok.expiresIn = m.accessTokenExpireTime ∧
    tok.code = getCode { tok with code := "" } := by
  have htok : tok = NewAccessToken m now getCode authTok req := by
    cases hL : storeListSecret env s req.clientID with
    | error e => simp [GenAccessToken, hL] at hok
    | ok secrets =>
      by_cases hSec : (secrets.any fun secret => secret.clientSecret == req.clientSecret) = false
      · simp [GenAccessToken, hL, hSec] at hok
      · have hSec' : (secrets.any fun secret => secret.clientSecret == req.clientSecret) = true := by
          cases hb : (secrets.any fun secret => secret.clientSecret == req.clientSecret) with
          | false => exact absurd hb hSec
          | true => rfl
        cases hChk : CheckByAuthorizationCode m now req authTok with
        | some e => simp [GenAccessToken, hL, hSec', hGet, hChk] at hok
        | none =>
          cases hCr : storeTokenCreate env s (NewAccessToken m now getCode authTok req) with
          | error e => simp [GenAccessToken, hL, hSec', hGet, hChk, hCr] at hok
          | ok s1 =>
            cases hDel : storeTokenDeleteByCode env s1 req.code with
            | error e =>
              simp [GenAccessToken, hL, hSec', hGet, hChk, hCr, hDel] at hok
              exact hok.symm
            | ok s2 =>
              simp [GenAccessToken, hL, hSec', hGet, hChk, hCr, hDel] at hok
              exact hok.symm
  subst htok
  exact ⟨rfl, rfl, rfl, rfl, rfl, rfl, rfl, rfl⟩

theorem genAccessToken_minted_fields_witness :
    tokAW.clientID = reqW.clientID ∧ tokAW.redirectURI = reqW.redirectURL ∧
    tokAW.scope = tokW.scope ∧ tokAW.userOrRobotIdentity = tokW.userOrRobotIdentity ∧
    tokAW.state = "" ∧ tokAW.createdAt = 5 ∧ tokAW.expiresIn = cfgW.accessTokenExpireTime ∧
    tokAW.code = getCodeW { tokAW with code := "" } :=
  genAccessToken_minted_fields cfgW envW 5 getCodeW storesW reqW tokW tokAW
    (by decide) (by decide)

/-- C1: `GenAccessToken` validates in this fixed order and maps each
failure to its error kind: a successful secret listing with no exact match
fails `SecretNotValid` regardless of the code's validity; then an absent
authorization code fails `NotFound`; then a state or redirect mismatch
fails `RequestNotValid`; then staleness fails `CodeExpired`; and an access
token is minted and persisted only for a request that passes all four
checks. -/
theorem genAccessToken_validates_in_order
    (m : ManagerConfig) (env : FaultEnv) (now : Nat) (getCode : Token → String)
    (s : OauthStores) (req : AccessTokenGenerateRequest) (secrets : List ClientSecret)
    (hList : storeListSecret env s req.clientID = .ok secrets) :
    ((secrets.any fun secret => secret.clientSecret == req.clientSecret) = false →
      (GenAccessToken m env now getCode s req).1 = .error .SecretNotValid) ∧
    ((secrets.any fun secret => secret.clientSecret == req.clientSecret) = true →
      s.tokens.find? (fun t => t.code == req.code) = none →
      (GenAccessToken m env now getCode s req).1 = .error .NotFound) ∧
    (∀ authTok, (secrets.any fun secret => secret.clientSecret == req.clientSecret) = true →
      storeTokenGet s req.code = .ok authTok →
      (req.state ≠ authTok.state ∨ req.redirectURL ≠ authTok.redirectURI) →
      (GenAccessToken m env now getCode s req).1 = .error .RequestNotValid) ∧
    (∀ authTok, (secrets.any fun secret => secret.clientSecret == req.clientSecret) = true →
      storeTokenGet s req.code = .ok authTok →
      req.state = authTok.state → req.redirectURL = authTok.redirectURI →
      authTok.createdAt + m.authorizeCodeExpireTime < now →
      (GenAccessToken m env now getCode s req).1 = .error .CodeExpired) ∧
    (∀ tok, (GenAccessToken m env now getCode s req).1 = .ok tok →
      (secrets.any fun secret => secret.clientSecret == req.clientSecret) = true ∧
      ∃ authTok, storeTokenGet s req.code = .ok authTok ∧
        req.state = authTok.state ∧ req.redirectURL = authTok.redirectURI ∧
        ¬ authTok.createdAt + m.authorizeCodeExpireTime < now) ∧
    (∀ t, StoreCall.tokenCreate t ∈ (GenAccessToken m env now getCode s req).2.2 →
      (secrets.any fun secret => secret.clientSecret == req.clientSecret) = true ∧
      ∃ authTok, storeTokenGet s req.code = .ok authTok ∧
        req.state = authTok.state ∧ req.redirectURL = authTok.redirectURI ∧
        ¬ authTok.createdAt + m.authorizeCodeExpireTime < now) := by
  refine ⟨?_, ?_, ?_, ?_, ?_, ?_⟩
  · intro hSec
    simp [GenAccessToken, hList, hSec]
  · intro hSec hNone
    have hGet : storeTokenGet s req.code = .error .NotFound := by
      simp [storeTokenGet, hNone]
    simp [GenAccessToken, hList, hSec, hGet]
  · intro authTok hSec hGet hMis
    simp [GenAccessToken, hList, hSec, hGet,
      checkByAuthorizationCode_mismatch m now req authTok hMis]
  · intro authTok hSec hGet hstate hredir hexp
    simp [GenAccessToken, hList, hSec, hGet,
      checkByAuthorizationCode_expired m now req authTok hstate hredir hexp]
  · intro tok htok
    by_cases hSec : (secrets.any fun secret => secret.clientSecret == req.clientSecret) = false
    · simp [GenAccessToken, hList, hSec] at htok
    · have hSec' : (secrets.any fun secret => secret.clientSecret == req.clientSecret) = true := by
        cases hb : (secrets.any fun secret => secret.clientSecret == req.clientSecret) with
        | false => exact absurd hb hSec
        | true => rfl
      refine ⟨hSec', ?_⟩
      cases hGet : storeTokenGet s req.code with
      | error e => simp [GenAccessToken, hList, hSec', hGet] at htok
      | ok authTok =>
        cases hChk : CheckByAuthorizationCode m now req authTok with
        | some e => simp [GenAccessToken, hList, hSec', hGet, hChk] at htok
        | none =>
          obtain ⟨hstate, hredir, hfresh⟩ :=
            (checkByAuthorizationCode_eq_none_iff m now req authTok).mp hChk
          exact ⟨authTok, rfl, hstate, hredir, hfresh⟩
  · intro t ht
    by_cases hSec : (secrets.any fun secret => secret.clientSecret == req.clientSecret) = false
    · simp [GenAccessToken, hList, hSec] at ht
    · have hSec' : (secrets.any fun secret => secret.clientSecret == req.clientSecret) = true := by
        cases hb : (secrets.any fun secret => secret.clientSecret == req.clientSecret) with
        | false => exact absurd hb hSec
        | true => rfl
      refine ⟨hSec', ?_⟩
      cases hGet : storeTokenGet s req.code with
      | error e => simp [GenAccessToken, hList, hSec', hGet] at ht
      | ok authTok =>
        cases hChk : CheckByAuthorizationCode m now req authTok with
        | some e => simp [GenAccessToken, hList, hSec', hGet, hChk] at ht
        | none =>
          obtain ⟨hstate, hredir, hfresh⟩ :=
            (checkByAuthorizationCode_eq_none_iff m now req authTok).mp hChk
          exact ⟨authTok, rfl, hstate, hredir, hfresh⟩

def reqBadSecretW : AccessTokenGenerateRequest := { reqW with clientSecret := "zz" }

def reqNoCodeW : AccessTokenGenerateRequest := { reqW with code := "nope" }

def reqBadStateW : AccessTokenGenerateRequest := { reqW with state := "bad" }

theorem genAccessToken_validates_in_order_witness :
    (GenAccessToken cfgW envW 5 getCodeW storesW reqBadSecretW).1 = .error .SecretNotValid ∧
    (GenAccessToken cfgW envW 5 getCodeW storesW reqNoCodeW).1 = .error .NotFound ∧
    (GenAccessToken cfgW envW 5 getCodeW storesW reqBadStateW).1 = .error .RequestNotValid ∧
    (GenAccessToken cfgW envW 50 getCodeW storesW reqW).1 = .error .CodeExpired ∧
    ((secW :: []).any fun secret => secret.clientSecret == reqW.clientSecret) = true :=
  ⟨(genAccessToken_validates_in_order cfgW envW 5 getCodeW storesW reqBadSecretW [secW]
      (by decide)).1 (by decide),
   (genAccessToken_validates_in_order cfgW envW 5 getCodeW storesW reqNoCodeW [secW]
      (by decide)).2.1 (by decide) (by decide),
   (genAccessToken_validates_in_order cfgW envW 5 getCodeW storesW reqBadStateW [secW]
      (by decide)).2.2.1 tokW (by decide) (by decide) (by decide),
   (genAccessToken_validates_in_order cfgW envW 50 getCodeW storesW reqW [secW]
      (by decide)).2.2.2.1 tokW (by decide) (by decide) rfl rfl (by decide),
   ((genAccessToken_validates_in_order cfgW envW 5 getCodeW storesW reqW [secW]
      (by decide)).2.2.2.2.1 tokAW (by decide)).1⟩

/-- C10: `GenAccessToken` is atomic on failure: whenever it returns an
error, the store state is unchanged, and whenever the error is of kind
`SecretNotValid`, `NotFound`, `RequestNotValid` or `CodeExpired`, the
trace holds only the read calls made before any store write — no access
token was created and the authorization code was not deleted. -/
theorem genAccessToken_atomic_on_failure
    (m : ManagerConfig) (env : FaultEnv) (now : Nat) (getCode : Token → String)
    (s : OauthStores) (req : AccessTokenGenerateRequest) (e : Err)
    (he : (GenAccessToken m env now getCode s req).1 = .error e) :
    (GenAccessToken m env now getCode s req).2.1 = s ∧
    (e = .SecretNotValid ∨ e = .NotFound ∨ e = .RequestNotValid ∨ e = .CodeExpired →
      (GenAccessToken m env now getCode s req).2.2 = [.listSecret req.clientID] ∨
      (GenAccessToken m env now getCode s req).2.2 =
        [.listSecret req.clientID, .tokenGet req.code]) := by
  cases hL : storeListSecret env s req.clientID with
  | error e1 =>
    refine ⟨?_, fun _ => Or.inl ?_⟩ <;> simp [GenAccessToken, hL]
  | ok secrets =>
    by_cases hSec : (secrets.any fun secret => secret.clientSecret == req.clientSecret) = false
    · refine ⟨?_, fun _ => Or.inl ?_⟩ <;> simp [GenAccessToken, hL, hSec]
    · have hSec' : (secrets.any fun secret => secret.clientSecret == req.clientSecret) = true := by
        cases hb : (secrets.any fun secret => secret.clientSecret == req.clientSecret) with
        | false => exact absurd hb hSec
        | true => rfl
      cases hGet : storeTokenGet s req.code with
      | error e2 =>
        refine ⟨?_, fun _ => Or.inr ?_⟩ <;> simp [GenAccessToken, hL, hSec', hGet]
      | ok authTok =>
        cases hChk : CheckByAuthorizationCode m now req authTok with
        | some e3 =>
          refine ⟨?_, fun _ => Or.inr ?_⟩ <;> simp [GenAccessToken, hL, hSec', hGet, hChk]
        | none =>
          cases hCr : storeTokenCreate env s (NewAccessToken m now getCode authTok req) with
          | error e4 =>
            obtain ⟨n, _, rfl⟩ := storeTokenCreate_error env s _ e4 hCr
            have he' : Err.storeErr n = e := by
              simpa [GenAccessToken, hL, hSec', hGet, hChk, hCr] using he
            constructor
            · simp [GenAccessToken, hL, hSec', hGet, hChk, hCr]
            · intro hkind
              rw [← he'] at hkind
              rcases hkind with h | h | h | h <;> cases h
          | ok s1 =>
            cases hDel : storeTokenDeleteByCode env s1 req.code with
            | error e5 => simp [GenAccessToken, hL, hSec', hGet, hChk, hCr, hDel] at he
            | ok s2 => simp [GenAccessToken, hL, hSec', hGet, hChk, hCr, hDel] at he

theorem genAccessToken_atomic_on_failure_witness :
    (GenAccessToken cfgW envW 5 getCodeW storesW reqBadSecretW).2.1 = storesW ∧
    (Err.SecretNotValid = .SecretNotValid ∨ Err.SecretNotValid = .NotFound ∨
     Err.SecretNotValid = .RequestNotValid ∨ Err.SecretNotValid = .CodeExpired →
      (GenAccessToken cfgW envW 5 getCodeW storesW reqBadSecretW).2.2 =
        [.listSecret reqBadSecretW.clientID] ∨
      (GenAccessToken cfgW envW 5 getCodeW storesW reqBadSecretW).2.2 =
        [.listSecret reqBadSecretW.clientID, .tokenGet reqBadSecretW.code]) :=
  genAccessToken_atomic_on_failure cfgW envW 5 getCodeW storesW reqBadSecretW
    .SecretNotValid (by decide)
